import Mathlib

/-!
Verification of the zacks-raycast core: the recents store
(`addToRecents` / `removeRecent` / `clearRecents` and the recents read in
`RecentStocks`), the two HTTP clients (`searchTickers`, `getZacksData`)
and the pure formatters (`formatCurrency`, `formatPercent`).

The embedding models the JavaScript source faithfully:
  * `LocalStorage` holds one value under the fixed key `recent-tickers`;
    a stored value is either absent, a string that `JSON.parse` rejects,
    or a string that parses to a `RecentTicker` array.  Since every write
    performed by the code stores `JSON.stringify` of a `RecentTicker`
    array (and parse inverts stringify), a parseable stored value is
    modelled directly by the array it denotes.
  * JavaScript exceptions are modelled by `Except`: a function body that
    can `throw` returns `Except String α`; a surrounding `try/catch`
    is the `Except` eliminator.
  * `fetch` outcomes are modelled by `HttpResult`: a network error, or a
    response with an HTTP status code and a body that is either
    unparseable JSON or a well-formed payload.
  * JavaScript numbers reached by these claims are modelled by `ℚ`
    (plus `NaN` / `±Infinity` constructors).  On every input appearing
    in the claims the parsed value and the `toFixed(2)` rounding are
    exact in binary64, so the rational model agrees with JS semantics
    there.
-/

namespace Zacks

/-- A persisted recents entry: `{ symbol, name, timestamp: Date.now() }`
(source: `addToRecents` in `zacks-rank.tsx`, `RecentTicker` in `types.ts`
per spec §3; the timestamp is integer milliseconds). -/
structure RecentTicker where
  symbol : String
  name : String
  timestamp : Nat
  deriving DecidableEq, Repr

/-- The value stored in `LocalStorage` under the key `"recent-tickers"`:
absent (`getItem` returns `undefined`), a string `JSON.parse` rejects, or
a string parsing to a `RecentTicker` array.  The empty string behaves as
`absent` in the source (`stored ? … : []` tests truthiness) and is never
written, so it is folded into `absent`. -/
inductive StoredValue where
  | absent : StoredValue
  | malformed : StoredValue
  | wellFormed : List RecentTicker → StoredValue
  deriving DecidableEq, Repr

/-- `const recents: RecentTicker[] = stored ? JSON.parse(stored) : [];`
(zacks-rank.tsx line 12, quick-lookup.tsx line 11, RecentStocks read).
`JSON.parse` throws a `SyntaxError` on a malformed stored string; there
is no `try/catch` around it in the source, so the error propagates. -/
def readStoredRecents : StoredValue → Except String (List RecentTicker)
  | .absent => .ok []
  | .malformed => .error "SyntaxError: Unexpected token in JSON"
  | .wellFormed l => .ok l

/-- `MAX_RECENTS` (zacks-rank.tsx line 8, quick-lookup.tsx line 7). -/
def MAX_RECENTS : Nat := 10

/-- `addToRecents(symbol, name)` (zacks-rank.tsx lines 10–24; the copy in
quick-lookup.tsx lines 9–16 is identical): read, filter out the symbol,
unshift a fresh entry stamped `Date.now()` (passed here as `now`),
truncate with `slice(0, MAX_RECENTS)`, write back. -/
def addToRecents (symbol name : String) (now : Nat) (store : StoredValue) :
    Except String StoredValue := do
  let recents ← readStoredRecents store
  let filtered := recents.filter (fun r => r.symbol != symbol)
  let unshifted := { symbol := symbol, name := name, timestamp := now } :: filtered
  let trimmed := unshifted.take MAX_RECENTS
  return .wellFormed trimmed

/-- `removeRecent(symbol)` (quick-lookup.tsx `RecentStocks`, lines
215–222): read, filter out the symbol, write back unconditionally. -/
def removeRecent (symbol : String) (store : StoredValue) :
    Except String StoredValue := do
  let current ← readStoredRecents store
  let filtered := current.filter (fun r => r.symbol != symbol)
  return .wellFormed filtered

/-- `clearRecents()` (quick-lookup.tsx lines 209–213):
`LocalStorage.removeItem(RECENTS_KEY)`. -/
def clearRecents (_store : StoredValue) : StoredValue := .absent

/-- The recents read in `RecentStocks` (quick-lookup.tsx lines 189–190):
same unguarded `stored ? JSON.parse(stored) : []` read. -/
def listRecents (store : StoredValue) : Except String (List RecentTicker) :=
  readStoredRecents store

/-- One user-visible mutation of the recents store, with the
`Date.now()` value an upsert observes carried explicitly. -/
inductive StoreOp where
  | upsert (symbol name : String) (now : Nat)
  | remove (symbol : String)
  | clear
  deriving DecidableEq, Repr

/-- Apply one mutation to the stored value (upsert and remove can raise
on a malformed stored string, hence `Except`). -/
def applyOp (store : StoredValue) : StoreOp → Except String StoredValue
  | .upsert symbol name now => addToRecents symbol name now store
  | .remove symbol => removeRecent symbol store
  | .clear => .ok (clearRecents store)

/-- Run a sequence of mutations starting from the empty (absent) store. -/
def runOps (ops : List StoreOp) : Except String StoredValue :=
  ops.foldl (fun acc op => acc.bind (fun s => applyOp s op)) (.ok .absent)

/-- The list a stored value denotes (absent and malformed denote none). -/
def storedList : StoredValue → List RecentTicker
  | .absent => []
  | .malformed => []
  | .wellFormed l => l

/- ### HTTP client model -/

/-- Outcome of one `fetch`: the promise rejects (network error), or a
response arrives with an HTTP status code and a body of type `β`. -/
inductive HttpResult (β : Type) where
  | netError : HttpResult β
  | resp (status : Nat) (body : β) : HttpResult β

/-- `Response.ok`: status in the inclusive range 200–299. -/
def jsResponseOk (status : Nat) : Bool :=
  200 ≤ status && status < 300

/-- `TickerSearchResult` (types.ts per spec §3): `{ symbol, name }`. -/
structure TickerSearchResult where
  symbol : String
  name : String
  deriving DecidableEq, Repr

/-- `YahooQuote` (api file lines 6–12): `shortname` and `longname` are
optional. -/
structure YahooQuote where
  symbol : String
  shortname : Option String := none
  longname : Option String := none
  quoteType : String
  exchange : String := ""
  deriving DecidableEq, Repr

/-- Body of a search response: JSON the client cannot decode, or a
decoded `YahooSearchResponse` with its `quotes` array. -/
inductive YahooBody where
  | malformed : YahooBody
  | quotes (quotes : List YahooQuote) : YahooBody

/-- JavaScript `a || b` where `a : string | undefined`: `a` is taken when
it is defined and truthy (a string is truthy iff non-empty). -/
def jsOrString (a : Option String) (b : String) : String :=
  match a with
  | some s => if s = "" then b else s
  | none => b

/-- The `try` block of `searchTickers` (api file lines 23–40) for a
non-empty query, given the outcome of its single `fetch`: throws on
rejected fetch, on `!response.ok`, and on an undecodable body; otherwise
filters `quotes` to EQUITY/ETF and maps to `{symbol, name}` with
`q.longname || q.shortname || q.symbol`. -/
def searchTickersTry (world : HttpResult YahooBody) :
    Except String (List TickerSearchResult) := do
  match world with
  | .netError => throw "TypeError: fetch failed"
  | .resp status body =>
    if !jsResponseOk status then
      throw ("Search failed: " ++ toString status)
    else
      match body with
      | .malformed => throw "SyntaxError: Unexpected token in JSON"
      | .quotes quotes =>
        return (quotes.filter
            (fun q => q.quoteType == "EQUITY" || q.quoteType == "ETF")).map
          (fun q => { symbol := q.symbol
                      name := jsOrString q.longname (jsOrString q.shortname q.symbol) })

/-- `searchTickers(query)` (api file lines 18–45).  Returns the result
list together with the number of network calls issued: the empty-query
guard (`!query || query.length < 1`) returns before the `try` block and
issues no fetch; otherwise exactly one fetch is issued and the `catch`
converts any thrown error into an empty list. -/
def searchTickers (query : String) (world : HttpResult YahooBody) :
    List TickerSearchResult × Nat :=
  if query.length < 1 then ([], 0)
  else
    match searchTickersTry world with
    | .error _ => ([], 1)
    | .ok results => (results, 1)

/-- `ZacksQuoteData` (types.ts per spec §3): all fields are vendor
strings.  Only the fields this development's claims touch are carried;
the record's identity is all the quote client's contract depends on. -/
structure ZacksQuoteData where
  ticker : String := ""
  name : String := ""
  last : String := ""
  net_change : String := ""
  percent_net_change : String := ""
  zacks_rank : String := ""
  zacks_rank_text : String := ""
  deriving DecidableEq, Repr

/-- Body of a quote response: undecodable JSON, or a decoded
`ZacksApiResponse` — a JavaScript object mapping ticker keys to quote
records, modelled as its lookup function (`obj[key]` is `m key`). -/
inductive ZacksBody where
  | malformed : ZacksBody
  | obj (m : String → Option ZacksQuoteData) : ZacksBody

/-- The `try` block of `getZacksData` (api file lines 48–55): one fetch
of `?t=<ticker.toUpperCase()>` — the response is a function of the
uppercased ticker sent — then `data[ticker.toUpperCase()]` and
`tickerData || null` (a defined record is an object, hence truthy). -/
def getZacksDataTry (ticker : String) (world : String → HttpResult ZacksBody) :
    Except String (Option ZacksQuoteData) := do
  match world ticker.toUpper with
  | .netError => throw "TypeError: fetch failed"
  | .resp status body =>
    if !jsResponseOk status then
      throw ("Zacks API failed: " ++ toString status)
    else
      match body with
      | .malformed => throw "SyntaxError: Unexpected token in JSON"
      | .obj m => return m ticker.toUpper

/-- `getZacksData(ticker)` (api file lines 47–60): the `catch` converts
any thrown error into `null`, i.e. the same absent signal as a response
that lacks the requested ticker key. -/
def getZacksData (ticker : String) (world : String → HttpResult ZacksBody) :
    Option ZacksQuoteData :=
  match getZacksDataTry ticker world with
  | .error _ => none
  | .ok v => v

/- ### Formatters: `parseFloat` / `toFixed(2)` model

A value `parseFloat` produces from a decimal literal is exactly
`± mant · 10 ^ exp` with natural `mant`; it is modelled by that exact
decimal.  On every string these claims evaluate the formatters at, the
binary64 value JS actually holds rounds with `toFixed(2)` to the same
string as the exact decimal does, so the model agrees with JS there. -/

/-- A finite JS number as produced by parsing a decimal literal:
`(-1)^neg · mant · 10 ^ exp`.  `neg = true, mant = 0` is JS `-0`. -/
structure JsDec where
  neg : Bool
  mant : Nat
  exp : Int
  deriving DecidableEq, Repr

/-- A `parseFloat` result: `NaN`, `±Infinity`, or a finite decimal. -/
inductive JsNum where
  | nan : JsNum
  | posInf : JsNum
  | negInf : JsNum
  | num (d : JsDec) : JsNum
  deriving DecidableEq, Repr

/-- The exact value of a parsed decimal, as a rational. -/
def JsDec.toRat (d : JsDec) : ℚ :=
  (if d.neg then -1 else 1) * (d.mant : ℚ) * (10 : ℚ) ^ d.exp

/-- `StrWhiteSpace` characters skipped by `parseFloat` (the common
ASCII ones; the source never passes exotic Unicode spaces). -/
def isJsWhitespace (c : Char) : Bool :=
  c == ' ' || c == '\t' || c == '\n' || c == '\r'

/-- Numeric value of one decimal digit character. -/
def digitVal (c : Char) : Nat := c.toNat - 48

/-- Numeric value of a digit run, most significant first. -/
def digitsNat (ds : List Char) : Nat :=
  ds.foldl (fun a c => 10 * a + digitVal c) 0

/-- Longest `DecimalLiteral` prefix without sign or exponent:
`Digits ['.' Digits?] | '.' Digits`.  Returns the digits as
`(mant, fracLen)` — value `mant · 10 ^ (-fracLen)` — and the unconsumed
rest, or `none` when no digit is found (`parseFloat` yields `NaN`). -/
def parseDecimalLiteral (l : List Char) : Option ((Nat × Nat) × List Char) :=
  let ds := l.takeWhile Char.isDigit
  let rest := l.dropWhile Char.isDigit
  if ds.isEmpty then
    match rest with
    | '.' :: r2 =>
      let fs := r2.takeWhile Char.isDigit
      let r3 := r2.dropWhile Char.isDigit
      if fs.isEmpty then none
      else some ((digitsNat fs, fs.length), r3)
    | _ => none
  else
    match rest with
    | '.' :: r2 =>
      let fs := r2.takeWhile Char.isDigit
      let r3 := r2.dropWhile Char.isDigit
      some ((digitsNat (ds ++ fs), fs.length), r3)
    | _ => some ((digitsNat ds, 0), rest)

/-- `ExponentPart` right after the literal: `e|E [+|-] Digits`.  A bare
`e` (or `e` with a sign but no digit) is not consumed — the longest
valid literal stops before it — so it contributes exponent `0`. -/
def parseExponentPart (l : List Char) : Int :=
  match l with
  | c :: rest =>
    if c == 'e' || c == 'E' then
      match rest with
      | s :: r2 =>
        if s == '+' then
          let ds := r2.takeWhile Char.isDigit
          if ds.isEmpty then 0 else (digitsNat ds : Int)
        else if s == '-' then
          let ds := r2.takeWhile Char.isDigit
          if ds.isEmpty then 0 else -(digitsNat ds : Int)
        else
          let ds := rest.takeWhile Char.isDigit
          if ds.isEmpty then 0 else (digitsNat ds : Int)
      | [] => 0
    else 0
  | [] => 0

/-- `parseFloat` after the optional sign has been consumed. -/
def parseAfterSign (neg : Bool) (l : List Char) : JsNum :=
  if l.take 8 = "Infinity".data then
    if neg then .negInf else .posInf
  else
    match parseDecimalLiteral l with
    | none => .nan
    | some ((mant, fracLen), rest) =>
      let e := parseExponentPart rest
      .num { neg := neg, mant := mant, exp := e - (fracLen : Int) }

/-- JS `parseFloat`: skip leading whitespace, read an optional sign,
then the longest `StrDecimalLiteral` prefix (`Infinity`, or digits with
optional fraction and exponent); anything left over is ignored.  `NaN`
when no such prefix exists. -/
def jsParseFloat (s : String) : JsNum :=
  let l := s.data.dropWhile isJsWhitespace
  match l with
  | '+' :: r => parseAfterSign false r
  | '-' :: r => parseAfterSign true r
  | _ => parseAfterSign false l

/-- Two-digit rendering of `n < 100`. -/
def padTwo (n : Nat) : String :=
  if n < 10 then "0" ++ toString n else toString n

/-- `Number.prototype.toFixed(2)` on an exact decimal: emit `-` for a
negative value (not for `-0`), then round `|x|·100` to the nearest
integer `n`, ties toward the larger `n`, and print `n/100.n%100`. -/
def jsToFixed2 (d : JsDec) : String :=
  let sign := if d.neg && d.mant != 0 then "-" else ""
  let t := d.exp + 2
  let n := if 0 ≤ t then d.mant * 10 ^ t.toNat
           else (2 * d.mant + 10 ^ (-t).toNat) / (2 * 10 ^ (-t).toNat)
  sign ++ toString (n / 100) ++ "." ++ padTwo (n % 100)

/-- JS `num >= 0` for a parsed finite value (`-0 >= 0` is `true`). -/
def JsDec.nonneg (d : JsDec) : Bool :=
  !d.neg || d.mant == 0

/-- The shared missing-value guard
`!value || value === "NA" || value === "-"` (a string is falsy iff
empty). -/
def formatMissing (value : String) : Bool :=
  value == "" || value == "NA" || value == "-"

/-- `formatPercent(value)` (api file lines 87–92). -/
def formatPercent (value : String) : String :=
  if formatMissing value then "N/A"
  else
    match jsParseFloat value with
    | .nan => value
    | .posInf => "+Infinity%"
    | .negInf => "-Infinity%"
    | .num d => (if d.nonneg then "+" else "") ++ jsToFixed2 d ++ "%"

/-- `formatCurrency(value)` (api file lines 95–100). -/
def formatCurrency (value : String) : String :=
  if formatMissing value then "N/A"
  else
    match jsParseFloat value with
    | .nan => value
    | .posInf => "$Infinity"
    | .negInf => "$-Infinity"
    | .num d => "$" ++ jsToFixed2 d

/- ### Store invariant -/

/-- A healthy stored value: never a malformed string, and any stored
list has pairwise-distinct symbols and at most 10 entries. -/
def GoodStore : StoredValue → Prop
  | .absent => True
  | .malformed => False
  | .wellFormed l => (l.map RecentTicker.symbol).Nodup ∧ l.length ≤ 10

/-- The eleven sequential distinct-symbol upserts of the cap scenario. -/
def elevenUpserts : List StoreOp :=
  [.upsert "S0" "N" 0, .upsert "S1" "N" 1, .upsert "S2" "N" 2,
   .upsert "S3" "N" 3, .upsert "S4" "N" 4, .upsert "S5" "N" 5,
   .upsert "S6" "N" 6, .upsert "S7" "N" 7, .upsert "S8" "N" 8,
   .upsert "S9" "N" 9, .upsert "S10" "N" 10]

/-- The list the cap scenario ends with: the ten most recent symbols,
most recent first; the first upsert's symbol has been pushed out. -/
def elevenFinal : List RecentTicker :=
  [⟨"S10", "N", 10⟩, ⟨"S9", "N", 9⟩, ⟨"S8", "N", 8⟩, ⟨"S7", "N", 7⟩,
   ⟨"S6", "N", 6⟩, ⟨"S5", "N", 5⟩, ⟨"S4", "N", 4⟩, ⟨"S3", "N", 3⟩,
   ⟨"S2", "N", 2⟩, ⟨"S1", "N", 1⟩]

/-- Filtering on the stored symbol keeps the symbols a sublist, hence
distinct, and the upserted symbol no longer occurs among them. -/
theorem filter_symbol_not_mem (l : List RecentTicker) (symbol : String) :
    symbol ∉ (l.filter (fun r => r.symbol != symbol)).map RecentTicker.symbol := by
  intro hmem
  rcases List.mem_map.mp hmem with ⟨r, hr, hsym⟩
  rcases List.mem_filter.mp hr with ⟨-, hne⟩
  exact absurd hsym (bne_iff_ne.mp hne)

/-- Every mutation applied to a healthy store succeeds and keeps the
store healthy. -/
theorem applyOp_good {s : StoredValue} (hs : GoodStore s) (op : StoreOp) :
    ∃ v, applyOp s op = .ok v ∧ GoodStore v := by
  cases op with
  | upsert symbol name now =>
    cases s with
    | absent =>
      refine ⟨.wellFormed [⟨symbol, name, now⟩], rfl, ?_, ?_⟩ <;> simp
    | malformed => exact absurd hs id
    | wellFormed l =>
      obtain ⟨hnd, -⟩ := hs
      refine ⟨_, rfl, ?_, ?_⟩
      · have hsub : (((⟨symbol, name, now⟩ :: l.filter (fun r => r.symbol != symbol)).take
            MAX_RECENTS).map RecentTicker.symbol).Sublist
            ((⟨symbol, name, now⟩ :: l.filter (fun r => r.symbol != symbol)).map
              RecentTicker.symbol) :=
          (List.take_sublist _ _).map _
        apply hsub.nodup
        refine List.Nodup.cons (filter_symbol_not_mem l symbol) ?_
        exact ((List.filter_sublist l).map RecentTicker.symbol).nodup hnd
      · calc ((⟨symbol, name, now⟩ :: l.filter (fun r => r.symbol != symbol)).take
              MAX_RECENTS).length ≤ MAX_RECENTS := List.length_take_le _ _
          _ = 10 := rfl
  | remove symbol =>
    cases s with
    | absent => exact ⟨.wellFormed [], rfl, by simp, by simp⟩
    | malformed => exact absurd hs id
    | wellFormed l =>
      obtain ⟨hnd, hlen⟩ := hs
      refine ⟨_, rfl, ?_, ?_⟩
      · exact ((List.filter_sublist l).map RecentTicker.symbol).nodup hnd
      · exact le_trans (List.length_filter_le _ l) hlen
  | clear => exact ⟨.absent, by cases s <;> rfl, trivial⟩

/-- Folding mutations from any healthy store succeeds and lands on a
healthy store. -/
theorem runOps_good_aux :
    ∀ (ops : List StoreOp) (s : StoredValue), GoodStore s →
      ∃ v, ops.foldl (fun (acc : Except String StoredValue) op =>
          acc.bind (fun t => applyOp t op)) (.ok s) = .ok v ∧
        GoodStore v := by
  intro ops
  induction ops with
  | nil => exact fun s hs => ⟨s, rfl, hs⟩
  | cons op ops ih =>
    intro s hs
    obtain ⟨v, hv, hgood⟩ := applyOp_good hs op
    have : (Except.ok s : Except String StoredValue).bind (fun t => applyOp t op) =
        .ok v := by simpa using hv
    simpa [List.foldl_cons, this] using ih v hgood

/- ### Claim theorems -/

/-- Claim C1: on every stored recents list, upsert removes every entry
with the given symbol, prepends `{symbol, name, now}`, and truncates to
the first 10 entries before writing back; and upserting AAPL, MSFT,
AAPL onto the empty store ends with `[AAPL, MSFT]`, AAPL carrying the
third call's timestamp. -/
theorem addToRecents_upsert_spec :
    (∀ (l : List RecentTicker) (symbol name : String) (now : Nat),
       addToRecents symbol name now (.wellFormed l) =
         .ok (.wellFormed
           (({symbol := symbol, name := name, timestamp := now} ::
             l.filter (fun r => r.symbol != symbol)).take 10)))
    ∧ (∀ t1 t2 t3 : Nat,
        (addToRecents "AAPL" "Apple Inc." t1 .absent).bind
            (fun s => (addToRecents "MSFT" "Microsoft" t2 s).bind
              (fun s => addToRecents "AAPL" "Apple Inc." t3 s)) =
          .ok (.wellFormed
            [{symbol := "AAPL", name := "Apple Inc.", timestamp := t3},
             {symbol := "MSFT", name := "Microsoft", timestamp := t2}])) := by
  constructor
  · intro l symbol name now
    rfl
  · intro t1 t2 t3
    rfl

/-- Claim C2: starting from the empty store, any sequence of upsert,
remove and clear operations leaves the persisted list with pairwise
distinct symbols and at most 10 entries; after the 11 distinct-symbol
upserts of `elevenUpserts` the list has exactly 10 entries and the
first upsert's symbol `"S0"` is gone. -/
theorem recents_store_invariant :
    (∀ ops : List StoreOp, ∃ v, runOps ops = .ok v ∧
       ((storedList v).map RecentTicker.symbol).Nodup ∧
       (storedList v).length ≤ 10)
    ∧ runOps elevenUpserts = .ok (.wellFormed elevenFinal)
    ∧ elevenFinal.length = 10
    ∧ "S0" ∉ elevenFinal.map RecentTicker.symbol := by
  refine ⟨?_, rfl, by decide, by decide⟩
  intro ops
  obtain ⟨v, hv, hgood⟩ := runOps_good_aux ops .absent trivial
  refine ⟨v, hv, ?_⟩
  cases v with
  | absent => simp [storedList]
  | malformed => exact absurd hgood id
  | wellFormed l => exact hgood

/-- Claim C3 counterexample: the recents read `stored ? JSON.parse(stored)
: []` has no `try/catch`, so on an unparseable stored value both the
list read and the upsert raise instead of yielding the empty list. -/
theorem recents_read_malformed_raises :
    listRecents StoredValue.malformed ≠ Except.ok [] ∧
    listRecents StoredValue.malformed =
      Except.error "SyntaxError: Unexpected token in JSON" ∧
    addToRecents "AAPL" "Apple Inc." 0 StoredValue.malformed =
      Except.error "SyntaxError: Unexpected token in JSON" := by
  exact ⟨fun h => Except.noConfusion h, rfl, rfl⟩

/-- Claim C3 amended: upsert and list return the empty list when the
stored key is absent, but a parse failure of the stored value is an
error: `JSON.parse`'s exception propagates out of both the list read
and the upsert. -/
theorem recents_read_amended :
    listRecents StoredValue.absent = .ok [] ∧
    (∀ symbol name now, addToRecents symbol name now StoredValue.absent =
       .ok (.wellFormed [{symbol := symbol, name := name, timestamp := now}])) ∧
    (∀ symbol name now, ∃ e,
       addToRecents symbol name now StoredValue.malformed = .error e) ∧
    (∃ e, listRecents StoredValue.malformed = .error e) := by
  refine ⟨rfl, fun symbol name now => rfl, fun symbol name now => ⟨_, rfl⟩, ⟨_, rfl⟩⟩

/-- Claim C9: remove writes back exactly the stored list with the
matching symbol's entries filtered out — a sublist, so every other
entry and the relative order are untouched — the write happens
unconditionally (an `.ok` write-back even when nothing matched), and
when no entry matches the written list equals the old one. -/
theorem removeRecent_frame_spec (l : List RecentTicker) (symbol : String) :
    removeRecent symbol (.wellFormed l) =
      .ok (.wellFormed (l.filter (fun r => r.symbol != symbol))) ∧
    (l.filter (fun r => r.symbol != symbol)).Sublist l ∧
    (∀ r ∈ l.filter (fun r => r.symbol != symbol), r.symbol ≠ symbol) ∧
    ((∀ r ∈ l, r.symbol ≠ symbol) →
      removeRecent symbol (.wellFormed l) = .ok (.wellFormed l)) := by
  refine ⟨rfl, List.filter_sublist l, ?_, ?_⟩
  · intro r hr
    exact bne_iff_ne.mp (List.mem_filter.mp hr).2
  · intro hall
    have : l.filter (fun r => r.symbol != symbol) = l :=
      List.filter_eq_self.mpr fun r hr => bne_iff_ne.mpr (hall r hr)
    rw [removeRecent, readStoredRecents]
    simp [this]

/-- Witness for C9 at a concrete store: removing a symbol that is not
present writes the list back unchanged. -/
theorem removeRecent_frame_spec_witness :
    removeRecent "MSFT"
        (.wellFormed [{symbol := "AAPL", name := "Apple Inc.", timestamp := 1}]) =
      .ok (.wellFormed [{symbol := "AAPL", name := "Apple Inc.", timestamp := 1}]) :=
  (removeRecent_frame_spec [{symbol := "AAPL", name := "Apple Inc.", timestamp := 1}]
    "MSFT").2.2.2 (by decide)

/-- `pure` on `Except` is `Except.ok`. -/
theorem except_pure_def {α : Type} (x : α) :
    (pure x : Except String α) = .ok x := rfl

/-- `throw` on `Except` is `Except.error`. -/
theorem except_throw_def {α : Type} (e : String) :
    (throw e : Except String α) = .error e := rfl

/-- Claim C4: the quote lookup is keyed by the uppercased ticker — the
response consulted is the one for `ticker.toUpper`, and the record
returned is the one stored under that key — while a rejected fetch, a
non-2xx status, an undecodable body, and a missing key all collapse to
`none`; the `catch` leaves no exception to propagate. -/
theorem getZacksData_spec :
    ∀ (ticker : String) (world : String → HttpResult ZacksBody),
      getZacksData ticker world =
        match world ticker.toUpper with
        | .netError => none
        | .resp status body =>
          if jsResponseOk status then
            match body with
            | .malformed => none
            | .obj m => m ticker.toUpper
          else none := by
  intro ticker world
  unfold getZacksData getZacksDataTry
  rcases world ticker.toUpper with _ | ⟨status, body⟩
  · rfl
  · rcases hok : jsResponseOk status with _ | _
    · simp [hok, except_throw_def]
    · rcases body with _ | m <;> simp [hok, except_throw_def, except_pure_def]

/-- Fetch outcomes the `catch` of `searchTickers` swallows: a rejected
fetch promise, a non-2xx response, or a 2xx response whose body does
not decode. -/
def FetchFailure (w : HttpResult YahooBody) : Prop :=
  w = .netError ∨
  (∃ status body, w = .resp status body ∧ jsResponseOk status = false) ∨
  (∃ status, w = .resp status .malformed)

/-- Claim C5: on any failed fetch — network error, non-2xx status, or
parse error — `searchTickers` returns the empty list and no exception
escapes; the outcome is the very value a successful zero-result search
produces. -/
theorem searchTickers_fail_soft (query : String) (world : HttpResult YahooBody)
    (h : FetchFailure world) :
    (searchTickers query world).fst = [] ∧
    searchTickers query world = searchTickers query (.resp 200 (.quotes [])) := by
  obtain ⟨e, he⟩ : ∃ e, searchTickersTry world = .error e := by
    rcases h with rfl | ⟨status, body, rfl, hbad⟩ | ⟨status, rfl⟩
    · exact ⟨_, rfl⟩
    · exact ⟨"Search failed: " ++ toString status,
        by simp [searchTickersTry, hbad, except_throw_def]⟩
    · rcases hok : jsResponseOk status with _ | _
      · exact ⟨"Search failed: " ++ toString status,
          by simp [searchTickersTry, hok, except_throw_def]⟩
      · exact ⟨"SyntaxError: Unexpected token in JSON",
          by simp [searchTickersTry, hok, except_throw_def]⟩
  refine ⟨?_, ?_⟩ <;> unfold searchTickers <;> by_cases hq : query.length < 1
  · rw [if_pos hq]
  · rw [if_neg hq, he]
  · rw [if_pos hq, if_pos hq]
  · rw [if_neg hq, if_neg hq, he]
    rfl

/-- Witness for C5: a network error on a non-empty query yields the
empty result of a zero-result search. -/
theorem searchTickers_fail_soft_witness :
    (searchTickers "AAPL" HttpResult.netError).fst = [] ∧
    searchTickers "AAPL" HttpResult.netError =
      searchTickers "AAPL" (.resp 200 (.quotes [])) :=
  searchTickers_fail_soft "AAPL" HttpResult.netError (Or.inl rfl)

/-- The result mapping as the spec words it: keep only EQUITY/ETF
entries; `name` prefers the long name, falling back to the short name,
falling back to the symbol itself (a JS field is preferred when it is
defined and truthy, i.e. a non-empty string). -/
def specShortOrSymbol (q : YahooQuote) : String :=
  match q.shortname with
  | some s => if s = "" then q.symbol else s
  | none => q.symbol

/-- The spec's preferred display name: long name, else short name, else
symbol. -/
def specPreferredName (q : YahooQuote) : String :=
  match q.longname with
  | some s => if s = "" then specShortOrSymbol q else s
  | none => specShortOrSymbol q

/-- The code's `||`-chain and the spec's preference order agree. -/
theorem jsOrString_eq_specPreferredName (q : YahooQuote) :
    jsOrString q.longname (jsOrString q.shortname q.symbol) = specPreferredName q := by
  rcases q with ⟨symbol, shortname, longname, quoteType, exchange⟩
  rcases longname with _ | l <;> rcases shortname with _ | s <;>
    simp [jsOrString, specPreferredName, specShortOrSymbol]

/-- Claim C6: on a well-formed 2xx response, `searchTickers` keeps
exactly the EQUITY/ETF quotes, maps each to `{symbol, name}` with the
spec's long-name / short-name / symbol preference, and the surviving
symbols form a sublist of the response's symbols — order preserved. -/
theorem searchTickers_mapping (query : String) (status : Nat)
    (quotes : List YahooQuote) (hq : 1 ≤ query.length)
    (hok : jsResponseOk status = true) :
    (searchTickers query (.resp status (.quotes quotes))).fst =
      (quotes.filter (fun q => q.quoteType == "EQUITY" || q.quoteType == "ETF")).map
        (fun q => { symbol := q.symbol, name := specPreferredName q }) ∧
    ((searchTickers query (.resp status (.quotes quotes))).fst.map
        TickerSearchResult.symbol).Sublist (quotes.map YahooQuote.symbol) := by
  have hguard : ¬ query.length < 1 := by omega
  have hfst : (searchTickers query (.resp status (.quotes quotes))).fst =
      (quotes.filter (fun q => q.quoteType == "EQUITY" || q.quoteType == "ETF")).map
        (fun q => { symbol := q.symbol, name := specPreferredName q }) := by
    unfold searchTickers searchTickersTry
    simp only [if_neg hguard, hok, Bool.not_true, Bool.false_eq_true, if_false,
      except_pure_def]
    exact List.map_congr_left fun q _ =>
      congrArg (fun n => TickerSearchResult.mk q.symbol n)
        (jsOrString_eq_specPreferredName q)
  refine ⟨hfst, ?_⟩
  rw [hfst, List.map_map]
  have : (TickerSearchResult.symbol ∘ fun q =>
      ({ symbol := q.symbol, name := specPreferredName q } : TickerSearchResult)) =
      YahooQuote.symbol := rfl
  rw [this]
  exact (List.filter_sublist quotes).map YahooQuote.symbol

/-- Witness for C6 on a concrete response: an INDEX quote is dropped,
the EQUITY and ETF quotes survive in order, names fall back as
specified. -/
theorem searchTickers_mapping_witness :
    (searchTickers "voo"
        (.resp 200 (.quotes
          [{ symbol := "AAPL", shortname := some "Apple",
             longname := some "Apple Inc.", quoteType := "EQUITY" },
           { symbol := "^GSPC", shortname := some "S&P 500",
             quoteType := "INDEX" },
           { symbol := "VOO", shortname := some "Vanguard S&P 500 ETF",
             quoteType := "ETF" }]))).fst =
      [{ symbol := "AAPL", name := "Apple Inc." },
       { symbol := "VOO", name := "Vanguard S&P 500 ETF" }] := by
  have h := searchTickers_mapping "voo" 200
    [{ symbol := "AAPL", shortname := some "Apple",
       longname := some "Apple Inc.", quoteType := "EQUITY" },
     { symbol := "^GSPC", shortname := some "S&P 500",
       quoteType := "INDEX" },
     { symbol := "VOO", shortname := some "Vanguard S&P 500 ETF",
       quoteType := "ETF" }] (by decide) (by decide)
  rw [h.1]
  rfl

/-- Claim C7: a zero-length query returns the empty list before the
`try` block, with no fetch issued (network-call count 0). -/
theorem searchTickers_empty_query (query : String) (world : HttpResult YahooBody)
    (h : query.length = 0) : searchTickers query world = ([], 0) := by
  unfold searchTickers
  rw [if_pos (by omega)]

/-- Witness for C7: the empty query against a live-looking world. -/
theorem searchTickers_empty_query_witness :
    searchTickers "" (.resp 200 (.quotes
      [{ symbol := "AAPL", quoteType := "EQUITY" }])) = ([], 0) :=
  searchTickers_empty_query "" _ (by decide)

/-- Claim C8: sentinel handling, two-decimal rendering, pass-through of
unparseable strings, and the `+` sign on every non-negative parsed
value, zero included. -/
theorem formatters_concrete_spec :
    formatCurrency "" = "N/A" ∧ formatCurrency "NA" = "N/A" ∧
    formatCurrency "-" = "N/A" ∧ formatCurrency "3.5" = "$3.50" ∧
    formatCurrency "abc" = "abc" ∧ formatPercent "-1.2" = "-1.20%" ∧
    formatPercent "0" = "+0.00%" ∧ formatPercent "NA" = "N/A" ∧
    (∀ (value : String) (d : JsDec), formatMissing value = false →
       jsParseFloat value = .num d → d.nonneg = true →
       formatPercent value = "+" ++ jsToFixed2 d ++ "%") := by
  refine ⟨by decide, by decide, by decide, by decide, by decide, by decide,
    by decide, by decide, ?_⟩
  intro value d hmiss hparse hpos
  simp [formatPercent, hmiss, hparse, hpos]

/-- Witness for C8: the zero case — parsed value `0`, rendered with the
`+` sign. -/
theorem formatters_concrete_spec_witness :
    formatPercent "0" =
      "+" ++ jsToFixed2 { neg := false, mant := 0, exp := 0 } ++ "%" :=
  formatters_concrete_spec.2.2.2.2.2.2.2.2 "0"
    { neg := false, mant := 0, exp := 0 } (by decide) (by decide) (by decide)

/-- After a numeric head `3.5`, a character that is not a digit and not
an exponent marker ends the literal: `parseFloat` still yields `3.5`. -/
theorem jsParseFloat_head35 (c : Char) (cs : List Char) (hdig : c.isDigit = false)
    (he : (c == 'e') = false) (hE : (c == 'E') = false) :
    jsParseFloat (String.mk ('3' :: '.' :: '5' :: c :: cs)) =
      JsNum.num { neg := false, mant := 35, exp := -1 } := by
  simp [jsParseFloat, parseAfterSign, parseDecimalLiteral, parseExponentPart,
    List.takeWhile_cons, List.dropWhile_cons, hdig, he, hE, isJsWhitespace,
    digitsNat, digitVal]

/-- A string starting with `3.5` is not one of the sentinel values of
the formatters' missing-value guard. -/
theorem formatMissing_head35 (c : Char) (cs : List Char) :
    formatMissing (String.mk ('3' :: '.' :: '5' :: c :: cs)) = false := by
  unfold formatMissing
  have h1 : (String.mk ('3' :: '.' :: '5' :: c :: cs) == "") = false := by
    apply beq_eq_false_iff_ne.mpr
    intro h
    exact List.noConfusion (congrArg String.data h)
  have h2 : (String.mk ('3' :: '.' :: '5' :: c :: cs) == "NA") = false := by
    apply beq_eq_false_iff_ne.mpr
    intro h
    have hd := congrArg String.data h
    have hNA : ("NA" : String).data = ['N', 'A'] := rfl
    rw [hNA] at hd
    injection hd with hh _
    exact absurd hh (by decide)
  have h3 : (String.mk ('3' :: '.' :: '5' :: c :: cs) == "-") = false := by
    apply beq_eq_false_iff_ne.mpr
    intro h
    have hd := congrArg String.data h
    have hDash : ("-" : String).data = ['-'] := rfl
    rw [hDash] at hd
    injection hd with hh _
    exact absurd hh (by decide)
  rw [h1, h2, h3]
  rfl

/-- Claim C10: `parseFloat` parses the longest numeric head of the
string, so `"3.5abc"` is formatted as `$3.50` / `+3.50%` rather than
returned unchanged; in general any non-digit, non-exponent-marker
character ends the literal and the formatters render the numeric head;
a string with no numeric head at all (`"abc"`) parses to `NaN` and is
returned unchanged. -/
theorem formatters_numeric_head_spec :
    formatCurrency "3.5abc" = "$3.50" ∧ formatPercent "3.5abc" = "+3.50%" ∧
    formatCurrency "3.5abc" ≠ "3.5abc" ∧ formatPercent "3.5abc" ≠ "3.5abc" ∧
    jsParseFloat "3.5abc" = jsParseFloat "3.5" ∧
    jsParseFloat "abc" = JsNum.nan ∧
    (∀ (c : Char) (cs : List Char), c.isDigit = false → (c == 'e') = false →
       (c == 'E') = false →
       jsParseFloat (String.mk ('3' :: '.' :: '5' :: c :: cs)) =
         JsNum.num { neg := false, mant := 35, exp := -1 } ∧
       formatCurrency (String.mk ('3' :: '.' :: '5' :: c :: cs)) = "$3.50" ∧
       formatPercent (String.mk ('3' :: '.' :: '5' :: c :: cs)) = "+3.50%") := by
  refine ⟨by decide, by decide, by decide, by decide, by decide, by decide, ?_⟩
  intro c cs hdig he hE
  have hp := jsParseFloat_head35 c cs hdig he hE
  have hm := formatMissing_head35 c cs
  refine ⟨hp, ?_, ?_⟩
  · simp only [formatCurrency, hm, Bool.false_eq_true, if_false, hp]
    decide
  · simp only [formatPercent, hm, Bool.false_eq_true, if_false, hp]
    decide

/-- Witness for C10 at `c = 'a'`, `cs = "bc"`: the tail `abc` is
ignored and the numeric head is formatted. -/
theorem formatters_numeric_head_spec_witness :
    jsParseFloat (String.mk ('3' :: '.' :: '5' :: 'a' :: ['b', 'c'])) =
      JsNum.num { neg := false, mant := 35, exp := -1 } ∧
    formatCurrency (String.mk ('3' :: '.' :: '5' :: 'a' :: ['b', 'c'])) = "$3.50" ∧
    formatPercent (String.mk ('3' :: '.' :: '5' :: 'a' :: ['b', 'c'])) = "+3.50%" :=
  formatters_numeric_head_spec.2.2.2.2.2.2 'a' ['b', 'c']
    (by decide) (by decide) (by decide)

end Zacks
